import Mathlib

/-!
Verification development for the wind-map resampling pipeline
(utils_scripts/visualize_wind_map.py).

The development shallowly embeds the three core components:
the scattered-field loader (load_and_interpolate), the rotated-crop
resampler (extract_rotated_crop) and the incident-field synthesizer
(export_incident_data_arrays), together with the numpy/scipy primitives
they call (linspace, meshgrid + ravel + stack, reshape, interpn with
linear method, griddata with linear method, float16 casting).

Conventions:
  - double-precision floating point arithmetic is modelled by exact reals;
  - the floating not-a-number sentinel is modelled by Option, none = NaN;
  - the half-precision (float16) storage of the incident arrays is
    modelled explicitly by an IEEE binary16 rounding function on reals;
  - file input and output (pandas read_csv, numpy save) is modelled by
    explicit state passing of a string-indexed file store.
-/

namespace WindMap

/-- Model of numpy.linspace a b n: n evenly spaced reals from a to b,
endpoints included.  For n = 1 the result is the singleton a, as in numpy
(the natural subtraction n - 1 is 0 there, and division by zero is zero). -/
noncomputable def linspace (a b : ℝ) (n : ℕ) : List ℝ :=
  (List.range n).map fun (i : ℕ) => a + (i : ℝ) * (b - a) / ((n - 1 : ℕ) : ℝ)

/-- Model of numpy.deg2rad: degrees to radians. -/
noncomputable def deg2rad (d : ℝ) : ℝ :=
  d * (Real.pi / 180)

/-- Model of numpy.meshgrid xs ys with indexing ij, followed by ravel of
the two resulting arrays and np.stack of the pair: the flat, row-major
list of all coordinate pairs, the pair at flat index i * ys.length + j
being (xs i, ys j). -/
def meshgridRavel {α β : Type} (xs : List α) (ys : List β) : List (α × β) :=
  (xs.map fun x => ys.map fun y => (x, y)).flatten

/-- Model of numpy.reshape to shape (Nx, Ny) in row-major order, for a
flat list of length Nx * Ny; the entry at row i, column j is the flat
entry at index i * Ny + j. -/
def reshape {α : Type} (Nx Ny : ℕ) (l : List α) (d : α) : List (List α) :=
  (List.range Nx).map fun i => (List.range Ny).map fun j => l.getD (i * Ny + j) d

/-- Model of the interval search of scipy RegularGridInterpolator: the
index of the left edge of the grid cell containing x, namely
searchsorted(xs, x, side left) minus one, clipped to 0 .. xs.length - 2. -/
noncomputable def findCell (xs : List ℝ) (x : ℝ) : ℕ :=
  min (xs.length - 2) ((xs.countP fun v => decide (v < x)) - 1)

/-- Model of scipy.interpolate.interpn on a 2-D rectilinear grid with the
linear method, bounds error disabled and NaN fill value: queries outside
the axis bounds give NaN (none); in-bounds queries give the bilinear
combination of the four surrounding cell values, which is NaN whenever
one of those cells is NaN (a NaN corner poisons the sum even with weight
zero, since zero times NaN is NaN in floating point). -/
noncomputable def interpn (xs ys : List ℝ) (f : ℕ → ℕ → Option ℝ) (x y : ℝ) :
    Option ℝ :=
  if x < xs.getD 0 0 ∨ xs.getD (xs.length - 1) 0 < x ∨
     y < ys.getD 0 0 ∨ ys.getD (ys.length - 1) 0 < y then
    none
  else
    let i := findCell xs x
    let j := findCell ys y
    let x0 := xs.getD i 0
    let x1 := xs.getD (i + 1) 0
    let y0 := ys.getD j 0
    let y1 := ys.getD (j + 1) 0
    let tx := (x - x0) / (x1 - x0)
    let ty := (y - y0) / (y1 - y0)
    match f i j, f (i + 1) j, f i (j + 1), f (i + 1) (j + 1) with
    | some v00, some v10, some v01, some v11 =>
        some ((1 - tx) * (1 - ty) * v00 + tx * (1 - ty) * v10 +
              (1 - tx) * ty * v01 + tx * ty * v11)
    | _, _, _, _ => none

/-- Embedding of extract_rotated_crop: build the local pixel grid with
linspace over the half-window ranges, map every local pixel to a global
coordinate by the forward rigid transform with the angle converted from
degrees to radians, interpolate each velocity channel of the source field
at the mapped points with interpn, and reshape the two flat result lists
to the output resolution.  The source velocity arrays are given as cell
functions; none models a NaN cell. -/
noncomputable def extract_rotated_crop (x_vec y_vec : List ℝ)
    (ux uy : ℕ → ℕ → Option ℝ) (cx cy : ℝ) (w h : ℝ) (angle_deg : ℝ)
    (Nx Ny : ℕ) : List (List (Option ℝ)) × List (List (Option ℝ)) :=
  let x_rel := linspace (-(w / 2)) (w / 2) Nx
  let y_rel := linspace (-(h / 2)) (h / 2) Ny
  let theta := deg2rad angle_deg
  let cos_t := Real.cos theta
  let sin_t := Real.sin theta
  let pts_interp := (meshgridRavel x_rel y_rel).map fun p =>
    (cos_t * p.1 - sin_t * p.2 + cx, sin_t * p.1 + cos_t * p.2 + cy)
  let ux_crop := pts_interp.map fun p => interpn x_vec y_vec ux p.1 p.2
  let uy_crop := pts_interp.map fun p => interpn x_vec y_vec uy p.1 p.2
  (reshape Nx Ny ux_crop none, reshape Nx Ny uy_crop none)

/-- IEEE binary16 value: a finite value (carried exactly as a rational),
one of the two infinities, or NaN. -/
inductive F16 : Type
  | finite (q : ℚ)
  | inf
  | neginf
  | nan
  deriving DecidableEq

/-- Round a real to the nearest integer, ties to even. -/
noncomputable def rne (x : ℝ) : ℤ :=
  if Int.fract x = 1 / 2 then
    (if Int.floor x % 2 = 0 then Int.floor x else Int.floor x + 1)
  else
    round x

/-- Model of the cast of an exact real to IEEE binary16 with rounding to
nearest, ties to even (the cast numpy applies when filling a float16
array from a double): magnitudes of at least 65520, the midpoint between
the largest finite binary16 value 65504 and the next power of two, round
to infinity; smaller magnitudes round to the binary16 grid whose unit in
the last place is two to the power e - 10, where e is the binade exponent
clamped below at -14 (subnormal range). -/
noncomputable def roundF16 (x : ℝ) : F16 :=
  if x = 0 then .finite 0
  else if 65520 ≤ |x| then (if 0 < x then .inf else .neginf)
  else
    let e : ℤ := max (Int.log 2 |x|) (-14)
    .finite ((rne (x / 2 ^ (e - 10)) : ℤ) * (2 : ℚ) ^ (e - 10))

/-- One row of the source point table, after the column renaming done by
the loader: position x, position y and the two velocity components. -/
structure WindRow : Type where
  x : ℝ
  y : ℝ
  ux : ℝ
  uy : ℝ

/-- The parsed source point table.  hasUy records whether the secondary
velocity column U:1 is present; when it is absent the loader fills the uy
column with zeros. -/
structure WindTable : Type where
  rows : List WindRow
  hasUy : Bool

/-- Content of a file in the modelled file store: a parsed csv point
table, a double-precision array (with possible NaN cells), or a
half-precision array. -/
inductive FileVal : Type
  | csv (t : WindTable)
  | npyFloat (a : List (List (Option ℝ)))
  | npyHalf (a : List (List F16))

/-- The file system, modelled as a map from file names to contents. -/
def Store : Type := String → Option FileVal

/-- A file store with no files. -/
def emptyStore : Store := fun _ => none

/-- Failure of the loader: the csv file is absent, or the scattered
interpolation has insufficient support (the Qhull triangulation failure
scipy raises when the input points have no 2-D affine span, which the
design documents as the InsufficientSupport error). -/
inductive LoadError : Type
  | fileNotFound
  | insufficientSupport
  deriving DecidableEq

/-- The rectilinear raster produced by the loader: the two coordinate
axes and the two interpolated velocity arrays, indexed x-index first;
none models a NaN cell. -/
structure RectilinearField : Type where
  x_vec : List ℝ
  y_vec : List ℝ
  ux_grid : List (List (Option ℝ))
  uy_grid : List (List (Option ℝ))

/-- Minimum of a list of reals, as pandas min on a column (0 only for the
empty column, which the pipeline never produces). -/
def listMin : List ℝ → ℝ
  | [] => 0
  | x :: xs => xs.foldl min x

/-- Maximum of a list of reals, as pandas max on a column. -/
def listMax : List ℝ → ℝ
  | [] => 0
  | x :: xs => xs.foldl max x

/-- Whether a list of planar points affinely spans the plane, that is,
contains three non-collinear points; when it does not, the Delaunay
triangulation underlying scipy griddata fails. -/
noncomputable def hasAffineSpan (pts : List (ℝ × ℝ)) : Bool :=
  pts.any fun p => pts.any fun q => pts.any fun r =>
    decide ((q.1 - p.1) * (r.2 - p.2) - (q.2 - p.2) * (r.1 - p.1) ≠ 0)

/-- Model of scipy.interpolate.griddata with the linear method: it fails
(none) exactly when the input points have no 2-D affine span, the Qhull
triangulation failure; otherwise it produces one value per query point.
The pointwise piecewise-linear interpolant over the Delaunay
triangulation, including its NaN fill outside the convex hull, is
abstracted as the parameter interp, whose triangulation-based values are
not needed by any property proved below. -/
noncomputable def griddata
    (interp : List (ℝ × ℝ) → List ℝ → ℝ × ℝ → Option ℝ)
    (points : List (ℝ × ℝ)) (values : List ℝ) (queries : List (ℝ × ℝ)) :
    Option (List (Option ℝ)) :=
  if hasAffineSpan points then some (queries.map (interp points values))
  else none

/-- Embedding of load_and_interpolate: read and parse the csv file from
the store (the renaming of the position and velocity columns and the
zero fill of a missing uy column are part of the WindTable model), build
the two axes with linspace over the coordinate bounds, and interpolate
each velocity channel at all nodes of the ij mesh of the axes with
griddata, reshaping the results to the grid shape.  A missing file or a
degenerate point set makes the call fail instead of returning a field.
The scattered interpolant is the abstracted parameter interp, as in
griddata. -/
noncomputable def load_and_interpolate
    (interp : List (ℝ × ℝ) → List ℝ → ℝ × ℝ → Option ℝ)
    (store : Store) (csv_path : String) (Nx Ny : ℕ) :
    Except LoadError RectilinearField :=
  match store csv_path with
  | some (.csv t) =>
      let pts := t.rows.map fun r => (r.x, r.y)
      let uxvals := t.rows.map fun r => r.ux
      let uyvals := t.rows.map fun r => if t.hasUy then r.uy else 0
      let x_vec := linspace (listMin (t.rows.map fun r => r.x))
        (listMax (t.rows.map fun r => r.x)) Nx
      let y_vec := linspace (listMin (t.rows.map fun r => r.y))
        (listMax (t.rows.map fun r => r.y)) Ny
      let queries := meshgridRavel x_vec y_vec
      match griddata interp pts uxvals queries,
            griddata interp pts uyvals queries with
      | some uxFlat, some uyFlat =>
          .ok ⟨x_vec, y_vec, reshape Nx Ny uxFlat none, reshape Nx Ny uyFlat none⟩
      | _, _ => .error .insufficientSupport
  | _ => .error .fileNotFound

/-- The two constant incident arrays computed by the synthesizer: the
global inflow vector of the given speed along the global x-axis,
decomposed onto the rotated local axes, each component cast to float16
and broadcast over the output resolution, as numpy full with a float16
dtype does. -/
noncomputable def incident_arrays (base_velocity angle_deg : ℝ) (Nx Ny : ℕ) :
    List (List F16) × List (List F16) :=
  let theta_rad := deg2rad angle_deg
  let ux_incident_component := base_velocity * Real.cos theta_rad
  let uy_incident_component := -(base_velocity * Real.sin theta_rad)
  ((List.range Nx).map fun _ => (List.range Ny).map fun _ =>
      roundF16 ux_incident_component,
   (List.range Nx).map fun _ => (List.range Ny).map fun _ =>
      roundF16 uy_incident_component)

/-- Embedding of export_incident_data_arrays: compute the two constant
half-precision incident arrays and write them to the store under the two
derived file names; no validation of the inputs is performed. -/
noncomputable def export_incident_data_arrays (base_velocity angle_deg : ℝ)
    (Nx Ny : ℕ) (save_prefix_path : String) (store : Store) : Store :=
  fun name =>
    if name = save_prefix_path ++ "_ux_incident.npy" then
      some (.npyHalf (incident_arrays base_velocity angle_deg Nx Ny).1)
    else if name = save_prefix_path ++ "_uy_incident.npy" then
      some (.npyHalf (incident_arrays base_velocity angle_deg Nx Ny).2)
    else store name

/-- Embedding of export_simulated_data_arrays: write the two cropped
simulated arrays to the store, unchanged and at full precision, under the
two derived file names. -/
def export_simulated_data_arrays (ux_crop uy_crop : List (List (Option ℝ)))
    (save_prefix_path : String) (store : Store) : Store :=
  fun name =>
    if name = save_prefix_path ++ "_ux_sim.npy" then some (.npyFloat ux_crop)
    else if name = save_prefix_path ++ "_uy_sim.npy" then some (.npyFloat uy_crop)
    else store name

/-! Helper lemmas about the list and array primitives. -/

theorem linspace_length (a b : ℝ) (n : ℕ) : (linspace a b n).length = n := by
  rw [linspace, List.length_map, List.length_range]

theorem getD_map_range {α : Type} (n i : ℕ) (g : ℕ → α) (d : α) (hi : i < n) :
    ((List.range n).map g).getD i d = g i := by
  rw [List.getD_eq_getElem?_getD, List.getElem?_map, List.getElem?_range hi]
  rfl

theorem linspace_getD (a b : ℝ) (n i : ℕ) (hi : i < n) :
    (linspace a b n).getD i 0 = a + (i : ℝ) * (b - a) / ((n - 1 : ℕ) : ℝ) := by
  rw [linspace]
  exact getD_map_range n i _ 0 hi

theorem meshgridRavel_length {α β : Type} (xs : List α) (ys : List β) :
    (meshgridRavel xs ys).length = xs.length * ys.length := by
  induction xs with
  | nil => simp [meshgridRavel]
  | cons x xs ih =>
      simp only [meshgridRavel, List.map_cons, List.flatten_cons, List.length_append,
        List.length_map, List.length_cons] at ih ⊢
      rw [ih]; ring

theorem meshgridRavel_getElem {α β : Type} (xs : List α) (ys : List β) (i j : ℕ)
    (dx : α) (dy : β) (hi : i < xs.length) (hj : j < ys.length) :
    (meshgridRavel xs ys)[i * ys.length + j]? = some (xs.getD i dx, ys.getD j dy) := by
  induction xs generalizing i with
  | nil => exact absurd hi (by simp)
  | cons x xs ih =>
      have hsplit : meshgridRavel (x :: xs) ys =
          (ys.map fun y => (x, y)) ++ meshgridRavel xs ys := rfl
      cases i with
      | zero =>
          rw [hsplit, Nat.zero_mul, Nat.zero_add,
            List.getElem?_append_left (by simpa using hj), List.getElem?_map,
            List.getElem?_eq_getElem hj, List.getD_eq_getElem ys dy hj]
          rfl
      | succ i =>
          have hlen : (ys.map fun y => (x, y)).length = ys.length := by simp
          have hge : (ys.map fun y => (x, y)).length ≤ (i + 1) * ys.length + j := by
            rw [hlen, Nat.succ_mul]
            omega
          rw [hsplit, List.getElem?_append_right hge, hlen]
          have hidx : (i + 1) * ys.length + j - ys.length = i * ys.length + j := by
            rw [Nat.succ_mul]; omega
          rw [hidx, ih i (by simpa using hi)]
          rfl

theorem reshape_getD {α : Type} (Nx Ny : ℕ) (l : List α) (d : α) (i j : ℕ)
    (hi : i < Nx) (hj : j < Ny) :
    ((reshape Nx Ny l d).getD i []).getD j d = l.getD (i * Ny + j) d := by
  unfold reshape
  rw [getD_map_range Nx i _ [] hi, getD_map_range Ny j _ d hj]

theorem deg2rad_zero : deg2rad 0 = 0 := by
  rw [deg2rad]; ring

theorem deg2rad_ninety : deg2rad 90 = Real.pi / 2 := by
  rw [deg2rad]; ring

theorem deg2rad_add_360 (a : ℝ) : deg2rad (a + 360) = deg2rad a + 2 * Real.pi := by
  rw [deg2rad, deg2rad]; ring

/-- The central indexing fact about the resampler: the output cell at row
i, column j of each channel is the interpn lookup of that channel at the
rigid-transform image of the local pixel (x_rel i, y_rel j). -/
theorem extract_rotated_crop_cell (x_vec y_vec : List ℝ) (ux uy : ℕ → ℕ → Option ℝ)
    (cx cy w h a : ℝ) (Nx Ny i j : ℕ) (hi : i < Nx) (hj : j < Ny) :
    (((extract_rotated_crop x_vec y_vec ux uy cx cy w h a Nx Ny).1.getD i []).getD j none =
      interpn x_vec y_vec ux
        (Real.cos (deg2rad a) * (linspace (-(w / 2)) (w / 2) Nx).getD i 0 -
          Real.sin (deg2rad a) * (linspace (-(h / 2)) (h / 2) Ny).getD j 0 + cx)
        (Real.sin (deg2rad a) * (linspace (-(w / 2)) (w / 2) Nx).getD i 0 +
          Real.cos (deg2rad a) * (linspace (-(h / 2)) (h / 2) Ny).getD j 0 + cy)) ∧
    (((extract_rotated_crop x_vec y_vec ux uy cx cy w h a Nx Ny).2.getD i []).getD j none =
      interpn x_vec y_vec uy
        (Real.cos (deg2rad a) * (linspace (-(w / 2)) (w / 2) Nx).getD i 0 -
          Real.sin (deg2rad a) * (linspace (-(h / 2)) (h / 2) Ny).getD j 0 + cx)
        (Real.sin (deg2rad a) * (linspace (-(w / 2)) (w / 2) Nx).getD i 0 +
          Real.cos (deg2rad a) * (linspace (-(h / 2)) (h / 2) Ny).getD j 0 + cy)) := by
  have hylen := linspace_length (-(h / 2)) (h / 2) Ny
  constructor <;>
  · simp only [extract_rotated_crop]
    rw [reshape_getD Nx Ny _ none i j hi hj, List.getD_eq_getElem?_getD,
      List.getElem?_map, List.getElem?_map,
      show i * Ny + j = i * (linspace (-(h / 2)) (h / 2) Ny).length + j by rw [hylen],
      meshgridRavel_getElem _ _ i j 0 0
        (by rw [linspace_length]; exact hi) (by rw [hylen]; exact hj)]
    rfl

theorem interpn_out_of_bounds (xs ys : List ℝ) (f : ℕ → ℕ → Option ℝ) (x y : ℝ)
    (hout : x < xs.getD 0 0 ∨ xs.getD (xs.length - 1) 0 < x ∨
      y < ys.getD 0 0 ∨ ys.getD (ys.length - 1) 0 < y) :
    interpn xs ys f x y = none := by
  unfold interpn
  rw [if_pos hout]

theorem interpn_const (xs ys : List ℝ) (c : ℝ) (x y : ℝ)
    (hin : ¬ (x < xs.getD 0 0 ∨ xs.getD (xs.length - 1) 0 < x ∨
      y < ys.getD 0 0 ∨ ys.getD (ys.length - 1) 0 < y)) :
    interpn xs ys (fun _ _ => some c) x y = some c := by
  unfold interpn
  rw [if_neg hin]
  show some _ = some c
  congr 1
  ring

theorem roundF16_zero : roundF16 0 = F16.finite 0 := by
  unfold roundF16
  simp

theorem roundF16_ne_nan (x : ℝ) : roundF16 x ≠ F16.nan := by
  unfold roundF16
  split
  · simp
  · split
    · split <;> simp
    · simp

theorem roundF16_inf_of_ge (x : ℝ) (hx : 65520 ≤ x) : roundF16 x = F16.inf := by
  have hpos : (0 : ℝ) < x := by linarith
  unfold roundF16
  rw [if_neg hpos.ne.symm, if_pos (by rw [abs_of_pos hpos]; exact hx), if_pos hpos]

theorem roundF16_neginf_of_le (x : ℝ) (hx : x ≤ -65520) : roundF16 x = F16.neginf := by
  have hneg : x < 0 := by linarith
  unfold roundF16
  rw [if_neg hneg.ne, if_pos (by rw [abs_of_neg hneg]; linarith),
    if_neg (not_lt.mpr hneg.le)]

theorem roundF16_finite_of_lt (x : ℝ) (hx : |x| < 65520) :
    ∃ q, roundF16 x = F16.finite q := by
  unfold roundF16
  by_cases h0 : x = 0
  · rw [if_pos h0]
    exact ⟨0, rfl⟩
  · rw [if_neg h0, if_neg (not_le.mpr hx)]
    exact ⟨_, rfl⟩

/-- Every cell of the two incident arrays is the float16 rounding of the
corresponding constant component. -/
theorem incident_arrays_cell (v a : ℝ) (Nx Ny i j : ℕ) (hi : i < Nx) (hj : j < Ny) :
    ((incident_arrays v a Nx Ny).1.getD i []).getD j F16.nan =
      roundF16 (v * Real.cos (deg2rad a)) ∧
    ((incident_arrays v a Nx Ny).2.getD i []).getD j F16.nan =
      roundF16 (-(v * Real.sin (deg2rad a))) := by
  simp only [incident_arrays]
  constructor <;>
    rw [getD_map_range Nx i _ [] hi, getD_map_range Ny j _ F16.nan hj]

/-! Claim theorems. -/

/-- C2: for every source field, window (w, h), resolution (Nx, Ny) of at
least two pixels per axis, center (cx, cy) and angle a in degrees, the
resampler samples each channel of the source field, for the (i, j)-th
output pixel, exactly at the global position obtained by rotating the
local pixel (x_rel i, y_rel j) by a converted to radians and translating
by the center, where x_rel i is the i-th of Nx evenly spaced values from
-w/2 to w/2 and y_rel j the j-th of Ny evenly spaced values from -h/2 to
h/2. -/
theorem C2_sample_positions (x_vec y_vec : List ℝ) (ux uy : ℕ → ℕ → Option ℝ)
    (cx cy w h a : ℝ) (Nx Ny i j : ℕ) (hNx : 2 ≤ Nx) (hNy : 2 ≤ Ny)
    (hi : i < Nx) (hj : j < Ny) :
    (((extract_rotated_crop x_vec y_vec ux uy cx cy w h a Nx Ny).1.getD i []).getD j none =
      interpn x_vec y_vec ux
        (Real.cos (deg2rad a) * (-(w / 2) + (i : ℝ) * w / ((Nx : ℝ) - 1)) -
          Real.sin (deg2rad a) * (-(h / 2) + (j : ℝ) * h / ((Ny : ℝ) - 1)) + cx)
        (Real.sin (deg2rad a) * (-(w / 2) + (i : ℝ) * w / ((Nx : ℝ) - 1)) +
          Real.cos (deg2rad a) * (-(h / 2) + (j : ℝ) * h / ((Ny : ℝ) - 1)) + cy)) ∧
    (((extract_rotated_crop x_vec y_vec ux uy cx cy w h a Nx Ny).2.getD i []).getD j none =
      interpn x_vec y_vec uy
        (Real.cos (deg2rad a) * (-(w / 2) + (i : ℝ) * w / ((Nx : ℝ) - 1)) -
          Real.sin (deg2rad a) * (-(h / 2) + (j : ℝ) * h / ((Ny : ℝ) - 1)) + cx)
        (Real.sin (deg2rad a) * (-(w / 2) + (i : ℝ) * w / ((Nx : ℝ) - 1)) +
          Real.cos (deg2rad a) * (-(h / 2) + (j : ℝ) * h / ((Ny : ℝ) - 1)) + cy)) := by
  have hcx : ((Nx - 1 : ℕ) : ℝ) = (Nx : ℝ) - 1 := by
    rw [Nat.cast_sub (by omega : 1 ≤ Nx), Nat.cast_one]
  have hcy : ((Ny - 1 : ℕ) : ℝ) = (Ny : ℝ) - 1 := by
    rw [Nat.cast_sub (by omega : 1 ≤ Ny), Nat.cast_one]
  have hx : (linspace (-(w / 2)) (w / 2) Nx).getD i 0 =
      -(w / 2) + (i : ℝ) * w / ((Nx : ℝ) - 1) := by
    rw [linspace_getD _ _ _ _ hi, hcx]
    ring
  have hy : (linspace (-(h / 2)) (h / 2) Ny).getD j 0 =
      -(h / 2) + (j : ℝ) * h / ((Ny : ℝ) - 1) := by
    rw [linspace_getD _ _ _ _ hj, hcy]
    ring
  obtain ⟨h1, h2⟩ := extract_rotated_crop_cell x_vec y_vec ux uy cx cy w h a
    Nx Ny i j hi hj
  rw [hx, hy] at h1 h2
  exact ⟨h1, h2⟩

/-- Witness for C2 at a concrete input. -/
theorem C2_sample_positions_witness :
    (2 ≤ 2 ∧ (0 : ℕ) < 2) ∧
    ((((extract_rotated_crop [0, 1] [0, 1] (fun _ _ => some 0) (fun _ _ => some 0)
        0 0 2 2 0 2 2).1.getD 0 []).getD 0 none =
      interpn [0, 1] [0, 1] (fun _ _ => some 0)
        (Real.cos (deg2rad 0) * (-(2 / 2) + ((0 : ℕ) : ℝ) * 2 / (((2 : ℕ) : ℝ) - 1)) -
          Real.sin (deg2rad 0) * (-(2 / 2) + ((0 : ℕ) : ℝ) * 2 / (((2 : ℕ) : ℝ) - 1)) + 0)
        (Real.sin (deg2rad 0) * (-(2 / 2) + ((0 : ℕ) : ℝ) * 2 / (((2 : ℕ) : ℝ) - 1)) +
          Real.cos (deg2rad 0) * (-(2 / 2) + ((0 : ℕ) : ℝ) * 2 / (((2 : ℕ) : ℝ) - 1)) + 0)) ∧
    (((extract_rotated_crop [0, 1] [0, 1] (fun _ _ => some 0) (fun _ _ => some 0)
        0 0 2 2 0 2 2).2.getD 0 []).getD 0 none =
      interpn [0, 1] [0, 1] (fun _ _ => some 0)
        (Real.cos (deg2rad 0) * (-(2 / 2) + ((0 : ℕ) : ℝ) * 2 / (((2 : ℕ) : ℝ) - 1)) -
          Real.sin (deg2rad 0) * (-(2 / 2) + ((0 : ℕ) : ℝ) * 2 / (((2 : ℕ) : ℝ) - 1)) + 0)
        (Real.sin (deg2rad 0) * (-(2 / 2) + ((0 : ℕ) : ℝ) * 2 / (((2 : ℕ) : ℝ) - 1)) +
          Real.cos (deg2rad 0) * (-(2 / 2) + ((0 : ℕ) : ℝ) * 2 / (((2 : ℕ) : ℝ) - 1)) + 0))) :=
  ⟨⟨le_refl 2, by norm_num⟩,
    C2_sample_positions [0, 1] [0, 1] (fun _ _ => some 0) (fun _ _ => some 0)
      0 0 2 2 0 2 2 0 0 (le_refl 2) (le_refl 2) (by norm_num) (by norm_num)⟩

/-- C8: the cropped field produced at angle a + 360 degrees is equal (here
even exactly, not only within floating tolerance) to the one produced at
angle a: the rotation is periodic with period 360 degrees. -/
theorem C8_periodicity_360 (x_vec y_vec : List ℝ) (ux uy : ℕ → ℕ → Option ℝ)
    (cx cy w h a : ℝ) (Nx Ny : ℕ) :
    extract_rotated_crop x_vec y_vec ux uy cx cy w h (a + 360) Nx Ny =
      extract_rotated_crop x_vec y_vec ux uy cx cy w h a Nx Ny := by
  have hc : Real.cos (deg2rad (a + 360)) = Real.cos (deg2rad a) := by
    rw [deg2rad_add_360, Real.cos_add_two_pi]
  have hs : Real.sin (deg2rad (a + 360)) = Real.sin (deg2rad a) := by
    rw [deg2rad_add_360, Real.sin_add_two_pi]
  simp only [extract_rotated_crop, hc, hs]

/-- C6: every output pixel whose mapped global coordinate falls outside
the field's axis bounds resolves to the not-a-number sentinel (none), for
both channels; the resampler is a total function, so no error is raised
on out-of-domain pixels. -/
theorem C6_out_of_domain_nan (x_vec y_vec : List ℝ) (ux uy : ℕ → ℕ → Option ℝ)
    (cx cy w h a : ℝ) (Nx Ny i j : ℕ) (hi : i < Nx) (hj : j < Ny)
    (hout : Real.cos (deg2rad a) * (linspace (-(w / 2)) (w / 2) Nx).getD i 0 -
          Real.sin (deg2rad a) * (linspace (-(h / 2)) (h / 2) Ny).getD j 0 + cx <
          x_vec.getD 0 0 ∨
        x_vec.getD (x_vec.length - 1) 0 <
          Real.cos (deg2rad a) * (linspace (-(w / 2)) (w / 2) Nx).getD i 0 -
            Real.sin (deg2rad a) * (linspace (-(h / 2)) (h / 2) Ny).getD j 0 + cx ∨
        Real.sin (deg2rad a) * (linspace (-(w / 2)) (w / 2) Nx).getD i 0 +
            Real.cos (deg2rad a) * (linspace (-(h / 2)) (h / 2) Ny).getD j 0 + cy <
          y_vec.getD 0 0 ∨
        y_vec.getD (y_vec.length - 1) 0 <
          Real.sin (deg2rad a) * (linspace (-(w / 2)) (w / 2) Nx).getD i 0 +
            Real.cos (deg2rad a) * (linspace (-(h / 2)) (h / 2) Ny).getD j 0 + cy) :
    ((extract_rotated_crop x_vec y_vec ux uy cx cy w h a Nx Ny).1.getD i []).getD j none =
        none ∧
    ((extract_rotated_crop x_vec y_vec ux uy cx cy w h a Nx Ny).2.getD i []).getD j none =
        none := by
  obtain ⟨h1, h2⟩ := extract_rotated_crop_cell x_vec y_vec ux uy cx cy w h a
    Nx Ny i j hi hj
  exact ⟨h1.trans (interpn_out_of_bounds _ _ _ _ _ hout),
    h2.trans (interpn_out_of_bounds _ _ _ _ _ hout)⟩

/-- Witness for C6 at a concrete input: a 1 by 1 crop centered far outside
a small field gives NaN cells. -/
theorem C6_out_of_domain_nan_witness :
    (0 : ℕ) < 1 ∧
    (((extract_rotated_crop [0, 1] [0, 1] (fun _ _ => some 0) (fun _ _ => some 0)
        100 100 2 2 0 1 1).1.getD 0 []).getD 0 none = none ∧
    ((extract_rotated_crop [0, 1] [0, 1] (fun _ _ => some 0) (fun _ _ => some 0)
        100 100 2 2 0 1 1).2.getD 0 []).getD 0 none = none) :=
  ⟨by norm_num,
    C6_out_of_domain_nan [0, 1] [0, 1] (fun _ _ => some 0) (fun _ _ => some 0)
      100 100 2 2 0 1 1 0 0 (by norm_num) (by norm_num)
      (Or.inr (Or.inl (by
        rw [linspace_getD _ _ _ _ (by norm_num), deg2rad_zero]
        simp
        norm_num)))⟩

/-- C1 counterexample: with a constant source field whose global velocity
is (0, 1) everywhere, a crop at angle 90 degrees returns the cells
(some 0, some 1), the raw global components; the decomposition of this
vector onto the rotated local axes would instead have first component
cos 90 times 0 plus sin 90 times 1, which is 1, not 0.  So the cropped
cells are not the velocity decomposed onto the rotated local axes. -/
theorem C1_counterexample :
    (((extract_rotated_crop [-100, 100] [-100, 100] (fun _ _ => some 0)
        (fun _ _ => some 1) 0 0 2 2 90 1 1).1.getD 0 []).getD 0 none = some 0) ∧
    (((extract_rotated_crop [-100, 100] [-100, 100] (fun _ _ => some 0)
        (fun _ _ => some 1) 0 0 2 2 90 1 1).2.getD 0 []).getD 0 none = some 1) ∧
    some (0 : ℝ) ≠
      some (Real.cos (deg2rad 90) * 0 + Real.sin (deg2rad 90) * 1) := by
  have hcos : Real.cos (deg2rad 90) = 0 := by
    rw [deg2rad_ninety]; exact Real.cos_pi_div_two
  have hsin : Real.sin (deg2rad 90) = 1 := by
    rw [deg2rad_ninety]; exact Real.sin_pi_div_two
  have hxr : (linspace (-(2 / 2 : ℝ)) (2 / 2) 1).getD 0 0 = -1 := by
    rw [linspace_getD _ _ _ _ (by norm_num)]
    norm_num
  obtain ⟨h1, h2⟩ := extract_rotated_crop_cell [-100, 100] [-100, 100]
    (fun _ _ => some 0) (fun _ _ => some 1) 0 0 2 2 90 1 1 0 0
    (by norm_num) (by norm_num)
  rw [hcos, hsin, hxr] at h1 h2
  norm_num at h1 h2
  refine ⟨?_, ?_, ?_⟩
  · simp only [List.getD_eq_getElem?_getD]
    rw [h1]
    exact interpn_const _ _ _ _ _ (by simp; norm_num)
  · simp only [List.getD_eq_getElem?_getD]
    rw [h2]
    exact interpn_const _ _ _ _ _ (by simp; norm_num)
  · rw [hcos, hsin]
    norm_num

/-- C1 amended: each cell of the cropped field holds the raw global-frame
velocity component of its own channel, interpolated at the mapped global
position, with no decomposition onto the rotated local axes; the claimed
LocalFrame decomposition therefore describes the output only at angle 0,
where the rotation-inverse projection is the identity on every vector. -/
theorem C1_amended_global_components (x_vec y_vec : List ℝ)
    (ux uy : ℕ → ℕ → Option ℝ) (cx cy w h a : ℝ) (Nx Ny i j : ℕ)
    (hi : i < Nx) (hj : j < Ny) :
    ((((extract_rotated_crop x_vec y_vec ux uy cx cy w h a Nx Ny).1.getD i []).getD j none =
      interpn x_vec y_vec ux
        (Real.cos (deg2rad a) * (linspace (-(w / 2)) (w / 2) Nx).getD i 0 -
          Real.sin (deg2rad a) * (linspace (-(h / 2)) (h / 2) Ny).getD j 0 + cx)
        (Real.sin (deg2rad a) * (linspace (-(w / 2)) (w / 2) Nx).getD i 0 +
          Real.cos (deg2rad a) * (linspace (-(h / 2)) (h / 2) Ny).getD j 0 + cy)) ∧
    (((extract_rotated_crop x_vec y_vec ux uy cx cy w h a Nx Ny).2.getD i []).getD j none =
      interpn x_vec y_vec uy
        (Real.cos (deg2rad a) * (linspace (-(w / 2)) (w / 2) Nx).getD i 0 -
          Real.sin (deg2rad a) * (linspace (-(h / 2)) (h / 2) Ny).getD j 0 + cx)
        (Real.sin (deg2rad a) * (linspace (-(w / 2)) (w / 2) Nx).getD i 0 +
          Real.cos (deg2rad a) * (linspace (-(h / 2)) (h / 2) Ny).getD j 0 + cy))) ∧
    (a = 0 → ∀ u v : ℝ,
      Real.cos (deg2rad a) * u + Real.sin (deg2rad a) * v = u ∧
      -(Real.sin (deg2rad a)) * u + Real.cos (deg2rad a) * v = v) := by
  refine ⟨extract_rotated_crop_cell x_vec y_vec ux uy cx cy w h a Nx Ny i j hi hj,
    fun ha u v => ?_⟩
  subst ha
  rw [deg2rad_zero, Real.cos_zero, Real.sin_zero]
  constructor <;> ring

/-- Witness for the amended C1 at a concrete input. -/
theorem C1_amended_global_components_witness :
    (0 : ℕ) < 1 ∧
    (((((extract_rotated_crop [0, 1] [0, 1] (fun _ _ => some 0) (fun _ _ => some 0)
        0 0 2 2 0 1 1).1.getD 0 []).getD 0 none =
      interpn [0, 1] [0, 1] (fun _ _ => some 0)
        (Real.cos (deg2rad 0) * (linspace (-(2 / 2)) (2 / 2) 1).getD 0 0 -
          Real.sin (deg2rad 0) * (linspace (-(2 / 2)) (2 / 2) 1).getD 0 0 + 0)
        (Real.sin (deg2rad 0) * (linspace (-(2 / 2)) (2 / 2) 1).getD 0 0 +
          Real.cos (deg2rad 0) * (linspace (-(2 / 2)) (2 / 2) 1).getD 0 0 + 0)) ∧
    (((extract_rotated_crop [0, 1] [0, 1] (fun _ _ => some 0) (fun _ _ => some 0)
        0 0 2 2 0 1 1).2.getD 0 []).getD 0 none =
      interpn [0, 1] [0, 1] (fun _ _ => some 0)
        (Real.cos (deg2rad 0) * (linspace (-(2 / 2)) (2 / 2) 1).getD 0 0 -
          Real.sin (deg2rad 0) * (linspace (-(2 / 2)) (2 / 2) 1).getD 0 0 + 0)
        (Real.sin (deg2rad 0) * (linspace (-(2 / 2)) (2 / 2) 1).getD 0 0 +
          Real.cos (deg2rad 0) * (linspace (-(2 / 2)) (2 / 2) 1).getD 0 0 + 0))) ∧
    ((0 : ℝ) = 0 → ∀ u v : ℝ,
      Real.cos (deg2rad 0) * u + Real.sin (deg2rad 0) * v = u ∧
      -(Real.sin (deg2rad 0)) * u + Real.cos (deg2rad 0) * v = v)) :=
  ⟨by norm_num,
    C1_amended_global_components [0, 1] [0, 1] (fun _ _ => some 0) (fun _ _ => some 0)
      0 0 2 2 0 1 1 0 0 (by norm_num) (by norm_num)⟩

/-- Concrete evaluation of the float16 cast: 2049 lies between the
representable neighbours 2048 and 2050 and rounds to even, giving 2048. -/
theorem roundF16_2049 : roundF16 2049 = F16.finite 2048 := by
  have h1 : ¬ (2049 : ℝ) = 0 := by norm_num
  have habs : |(2049 : ℝ)| = 2049 := abs_of_pos (by norm_num)
  have h2 : ¬ (65520 : ℝ) ≤ |(2049 : ℝ)| := by rw [habs]; norm_num
  have hnat : Nat.log 2 2049 = 11 :=
    Nat.log_eq_of_pow_le_of_lt_pow (by norm_num) (by norm_num)
  have hlog : Int.log 2 |(2049 : ℝ)| = 11 := by
    rw [habs, show (2049 : ℝ) = ((2049 : ℕ) : ℝ) by norm_num, Int.log_natCast, hnat]
    norm_num
  have hfloor : ⌊(2049 / 2 : ℝ)⌋ = 1024 := by norm_num [Int.floor_eq_iff]
  have hfr : Int.fract (2049 / 2 : ℝ) = 1 / 2 := by
    norm_num [Int.fract, Int.floor_eq_iff]
  have hrne : rne (2049 / 2 : ℝ) = 1024 := by
    unfold rne
    rw [if_pos hfr, hfloor, if_pos (by decide : (1024 : ℤ) % 2 = 0)]
  unfold roundF16
  rw [if_neg h1, if_neg h2]
  simp only [hlog, show max (11 : ℤ) (-14) = 11 from by decide,
    show (11 : ℤ) - 10 = 1 from by decide, zpow_one]
  rw [hrne]
  norm_num

/-- Concrete evaluation of the float16 cast: 65505 exceeds the largest
finite binary16 value 65504 but is below the overflow threshold 65520, so
it rounds down to the finite 65504 instead of overflowing to infinity. -/
theorem roundF16_65505 : roundF16 65505 = F16.finite 65504 := by
  have h1 : ¬ (65505 : ℝ) = 0 := by norm_num
  have habs : |(65505 : ℝ)| = 65505 := abs_of_pos (by norm_num)
  have h2 : ¬ (65520 : ℝ) ≤ |(65505 : ℝ)| := by rw [habs]; norm_num
  have hnat : Nat.log 2 65505 = 15 :=
    Nat.log_eq_of_pow_le_of_lt_pow (by norm_num) (by norm_num)
  have hlog : Int.log 2 |(65505 : ℝ)| = 15 := by
    rw [habs, show (65505 : ℝ) = ((65505 : ℕ) : ℝ) by norm_num, Int.log_natCast, hnat]
    norm_num
  have hfloor : ⌊(65505 / 32 : ℝ)⌋ = 2047 := by norm_num [Int.floor_eq_iff]
  have hfr : Int.fract (65505 / 32 : ℝ) = 1 / 32 := by
    norm_num [Int.fract, Int.floor_eq_iff]
  have hrne : rne (65505 / 32 : ℝ) = 2047 := by
    unfold rne
    rw [if_neg (by rw [hfr]; norm_num), round_eq,
      show (65505 / 32 + 1 / 2 : ℝ) = 65521 / 32 by ring,
      show ⌊(65521 / 32 : ℝ)⌋ = 2047 by norm_num [Int.floor_eq_iff]]
  unfold roundF16
  rw [if_neg h1, if_neg h2]
  simp only [hlog, show max (15 : ℤ) (-14) = 15 from by decide,
    show (15 : ℤ) - 10 = 5 from by decide,
    show ((2 : ℝ) ^ (5 : ℤ)) = 32 from by norm_num]
  rw [hrne]
  norm_num [show ((2 : ℚ) ^ (5 : ℤ)) = 32 from by norm_num]

/-- C3 counterexample: at base speed 2049 and angle 0 the computed
component is exactly 2049, but the stored incident cell is the float16
value 2048, so the cell does not hold the pair claimed. -/
theorem C3_counterexample :
    ((incident_arrays 2049 0 1 1).1.getD 0 []).getD 0 F16.nan = F16.finite 2048 ∧
    (2049 : ℝ) * Real.cos (deg2rad 0) = 2049 ∧
    F16.finite (2048 : ℚ) ≠ F16.finite (2049 : ℚ) := by
  have hcomp : (2049 : ℝ) * Real.cos (deg2rad 0) = 2049 := by
    rw [deg2rad_zero, Real.cos_zero]; ring
  have hcell := (incident_arrays_cell 2049 0 1 1 0 0 (by norm_num) (by norm_num)).1
  refine ⟨?_, hcomp, by simp⟩
  rw [hcell, hcomp, roundF16_2049]

/-- C3 amended: every cell of the incident field holds the same constant
pair, the float16 roundings of the components s cos t and minus s sin t;
at angle 0 the cells are (the float16 rounding of s, exact zero), and at
angle 90 they are (exact zero, the float16 rounding of minus s). -/
theorem C3_amended_incident_constant (s a : ℝ) (Nx Ny i j : ℕ) (_hs : 0 ≤ s)
    (hi : i < Nx) (hj : j < Ny) :
    (((incident_arrays s a Nx Ny).1.getD i []).getD j F16.nan =
        roundF16 (s * Real.cos (deg2rad a)) ∧
      ((incident_arrays s a Nx Ny).2.getD i []).getD j F16.nan =
        roundF16 (-(s * Real.sin (deg2rad a)))) ∧
    (a = 0 →
      ((incident_arrays s a Nx Ny).1.getD i []).getD j F16.nan = roundF16 s ∧
      ((incident_arrays s a Nx Ny).2.getD i []).getD j F16.nan = F16.finite 0) ∧
    (a = 90 →
      ((incident_arrays s a Nx Ny).1.getD i []).getD j F16.nan = F16.finite 0 ∧
      ((incident_arrays s a Nx Ny).2.getD i []).getD j F16.nan = roundF16 (-s)) := by
  obtain ⟨h1, h2⟩ := incident_arrays_cell s a Nx Ny i j hi hj
  refine ⟨⟨h1, h2⟩, fun ha => ?_, fun ha => ?_⟩
  · subst ha
    constructor
    · rw [h1, deg2rad_zero, Real.cos_zero, mul_one]
    · rw [h2, deg2rad_zero, Real.sin_zero, mul_zero, neg_zero, roundF16_zero]
  · subst ha
    constructor
    · rw [h1, deg2rad_ninety, Real.cos_pi_div_two, mul_zero, roundF16_zero]
    · rw [h2, deg2rad_ninety, Real.sin_pi_div_two, mul_one]

/-- Witness for the amended C3 at a concrete input. -/
theorem C3_amended_incident_constant_witness :
    (0 : ℝ) ≤ 1 ∧ (0 : ℕ) < 1 ∧
    ((((incident_arrays 1 0 1 1).1.getD 0 []).getD 0 F16.nan =
        roundF16 (1 * Real.cos (deg2rad 0)) ∧
      ((incident_arrays 1 0 1 1).2.getD 0 []).getD 0 F16.nan =
        roundF16 (-(1 * Real.sin (deg2rad 0)))) ∧
    ((0 : ℝ) = 0 →
      ((incident_arrays 1 0 1 1).1.getD 0 []).getD 0 F16.nan = roundF16 1 ∧
      ((incident_arrays 1 0 1 1).2.getD 0 []).getD 0 F16.nan = F16.finite 0) ∧
    ((0 : ℝ) = 90 →
      ((incident_arrays 1 0 1 1).1.getD 0 []).getD 0 F16.nan = F16.finite 0 ∧
      ((incident_arrays 1 0 1 1).2.getD 0 []).getD 0 F16.nan = roundF16 (-1))) :=
  ⟨by norm_num, by norm_num,
    C3_amended_incident_constant 1 0 1 1 0 0 (by norm_num) (by norm_num) (by norm_num)⟩

/-- Appending different suffixes to the same stem gives different
strings. -/
theorem append_ne_of_suffix_ne (s a b : String) (h : a ≠ b) : s ++ a ≠ s ++ b := by
  intro hcontra
  apply h
  have hdata : s.data ++ a.data = s.data ++ b.data := congrArg String.data hcontra
  exact String.ext (List.append_cancel_left hdata)

/-- C10 counterexample: at base speed 65505 and angle 0 the computed
component 65505 exceeds the float16 maximum 65504, yet the stored
incident cell is the finite value 65504, not an infinity: the cast
overflows only from the rounding threshold 65520 on. -/
theorem C10_counterexample :
    ((incident_arrays 65505 0 1 1).1.getD 0 []).getD 0 F16.nan = F16.finite 65504 ∧
    (65504 : ℝ) < 65505 ∧
    F16.finite (65504 : ℚ) ≠ F16.inf := by
  have hcomp : (65505 : ℝ) * Real.cos (deg2rad 0) = 65505 := by
    rw [deg2rad_zero, Real.cos_zero]; ring
  have hcell := (incident_arrays_cell 65505 0 1 1 0 0 (by norm_num) (by norm_num)).1
  refine ⟨?_, by norm_num, by simp⟩
  rw [hcell, hcomp, roundF16_65505]

/-- C10 amended: every incident cell is the float16 rounding of the
computed double-precision component; that rounding yields an infinity
exactly from magnitude 65520 on (magnitudes between 65504 and 65520 still
round to the finite maximum), and never yields NaN; the simulated crop
arrays, by contrast, are written to the store unchanged at full
precision, so the two channels of one labeled sample differ in numeric
precision. -/
theorem C10_amended_half_precision (v a : ℝ) (Nx Ny i j : ℕ)
    (uxc uyc : List (List (Option ℝ))) (stem : String) (store : Store)
    (hi : i < Nx) (hj : j < Ny) :
    (((incident_arrays v a Nx Ny).1.getD i []).getD j F16.nan =
        roundF16 (v * Real.cos (deg2rad a)) ∧
      ((incident_arrays v a Nx Ny).2.getD i []).getD j F16.nan =
        roundF16 (-(v * Real.sin (deg2rad a)))) ∧
    (∀ x : ℝ, 65520 ≤ x → roundF16 x = F16.inf) ∧
    (∀ x : ℝ, x ≤ -65520 → roundF16 x = F16.neginf) ∧
    (∀ x : ℝ, |x| < 65520 → ∃ q, roundF16 x = F16.finite q) ∧
    (∀ x : ℝ, roundF16 x ≠ F16.nan) ∧
    (export_simulated_data_arrays uxc uyc stem store) (stem ++ "_ux_sim.npy") =
        some (.npyFloat uxc) ∧
    (export_simulated_data_arrays uxc uyc stem store) (stem ++ "_uy_sim.npy") =
        some (.npyFloat uyc) := by
  refine ⟨incident_arrays_cell v a Nx Ny i j hi hj,
    roundF16_inf_of_ge, roundF16_neginf_of_le, roundF16_finite_of_lt,
    roundF16_ne_nan, ?_, ?_⟩
  · unfold export_simulated_data_arrays
    rw [if_pos rfl]
  · unfold export_simulated_data_arrays
    rw [if_neg (append_ne_of_suffix_ne stem _ _ (by decide)), if_pos rfl]

/-- Witness for the amended C10 at a concrete input. -/
theorem C10_amended_half_precision_witness :
    (0 : ℕ) < 1 ∧
    ((((incident_arrays 1 0 1 1).1.getD 0 []).getD 0 F16.nan =
        roundF16 (1 * Real.cos (deg2rad 0)) ∧
      ((incident_arrays 1 0 1 1).2.getD 0 []).getD 0 F16.nan =
        roundF16 (-(1 * Real.sin (deg2rad 0)))) ∧
    (∀ x : ℝ, 65520 ≤ x → roundF16 x = F16.inf) ∧
    (∀ x : ℝ, x ≤ -65520 → roundF16 x = F16.neginf) ∧
    (∀ x : ℝ, |x| < 65520 → ∃ q, roundF16 x = F16.finite q) ∧
    (∀ x : ℝ, roundF16 x ≠ F16.nan) ∧
    (export_simulated_data_arrays [] [] "p" emptyStore) ("p" ++ "_ux_sim.npy") =
        some (.npyFloat []) ∧
    (export_simulated_data_arrays [] [] "p" emptyStore) ("p" ++ "_uy_sim.npy") =
        some (.npyFloat [])) :=
  ⟨by norm_num,
    C10_amended_half_precision 1 0 1 1 0 0 [] [] "p" emptyStore
      (by norm_num) (by norm_num)⟩

theorem linspace_first (a b : ℝ) (n : ℕ) (hn : 0 < n) :
    (linspace a b n).getD 0 0 = a := by
  rw [linspace_getD a b n 0 hn]
  simp

theorem linspace_last (a b : ℝ) (n : ℕ) (hn : 2 ≤ n) :
    (linspace a b n).getD (n - 1) 0 = b := by
  rw [linspace_getD a b n (n - 1) (by omega),
    Nat.cast_sub (by omega : 1 ≤ n), Nat.cast_one]
  have h2 : (2 : ℝ) ≤ (n : ℝ) := by exact_mod_cast hn
  have hne : (n : ℝ) - 1 ≠ 0 := by linarith
  field_simp

theorem reshape_length {α : Type} (Nx Ny : ℕ) (l : List α) (d : α) :
    (reshape Nx Ny l d).length = Nx := by
  simp [reshape]

theorem reshape_row_length {α : Type} (Nx Ny : ℕ) (l : List α) (d : α) :
    ∀ row ∈ reshape Nx Ny l d, row.length = Ny := by
  intro row hrow
  simp only [reshape, List.mem_map, List.mem_range] at hrow
  obtain ⟨i, _, rfl⟩ := hrow
  simp

/-- C4: when the point samples contain fewer than 3 non-collinear points,
that is, every triple of input points is collinear, the loader fails with
the insufficient-support error (the Qhull failure of the scattered linear
interpolation) and does not return a RectilinearField. -/
theorem C4_insufficient_support
    (interp : List (ℝ × ℝ) → List ℝ → ℝ × ℝ → Option ℝ)
    (store : Store) (csv_path : String) (t : WindTable) (Nx Ny : ℕ)
    (ht : store csv_path = some (.csv t))
    (hdeg : ∀ p ∈ t.rows.map fun r => (r.x, r.y),
      ∀ q ∈ t.rows.map fun r => (r.x, r.y),
      ∀ r ∈ t.rows.map fun r => (r.x, r.y),
      (q.1 - p.1) * (r.2 - p.2) = (q.2 - p.2) * (r.1 - p.1)) :
    load_and_interpolate interp store csv_path Nx Ny =
      .error .insufficientSupport := by
  have hspan : hasAffineSpan (t.rows.map fun r => (r.x, r.y)) = false := by
    rw [Bool.eq_false_iff]
    simp only [ne_eq, hasAffineSpan, List.any_eq_true, decide_eq_true_eq, not_exists]
    push_neg
    simpa [sub_eq_zero] using hdeg
  have hgd : ∀ vals queries,
      griddata interp (t.rows.map fun r => (r.x, r.y)) vals queries = none := by
    intro vals queries
    simp [griddata, hspan]
  unfold load_and_interpolate
  rw [ht]
  simp only [hgd]

/-- Witness for C4 at a concrete input: two points on the diagonal. -/
theorem C4_insufficient_support_witness :
    (fun n => if n = "w.csv" then
        some (FileVal.csv ⟨[⟨0, 0, 1, 0⟩, ⟨1, 1, 2, 0⟩], true⟩) else none : Store)
      "w.csv" = some (FileVal.csv ⟨[⟨0, 0, 1, 0⟩, ⟨1, 1, 2, 0⟩], true⟩) ∧
    load_and_interpolate (fun _ _ _ => none)
      (fun n => if n = "w.csv" then
        some (FileVal.csv ⟨[⟨0, 0, 1, 0⟩, ⟨1, 1, 2, 0⟩], true⟩) else none)
      "w.csv" 4 4 = .error .insufficientSupport :=
  ⟨by simp,
    C4_insufficient_support (fun _ _ _ => none) _ "w.csv"
      ⟨[⟨0, 0, 1, 0⟩, ⟨1, 1, 2, 0⟩], true⟩ 4 4 (by simp)
      (by
        intro p hp q hq r hr
        simp only [List.map_cons, List.map_nil, List.mem_cons, List.not_mem_nil,
          or_false] at hp hq hr
        rcases hp with rfl | rfl <;> rcases hq with rfl | rfl <;>
          rcases hr with rfl | rfl <;> norm_num)⟩

/-- C7: for a non-degenerate input point set and a target grid shape of
at least two nodes per axis, the loader returns a field whose x-axis is
the evenly spaced sequence of length Nx spanning exactly the closed
interval from the minimum to the maximum input x (inclusive endpoints),
likewise for the y-axis with Ny, and whose two velocity arrays have shape
(length of x-axis, length of y-axis), indexed x-index first. -/
theorem C7_axes_and_shape
    (interp : List (ℝ × ℝ) → List ℝ → ℝ × ℝ → Option ℝ)
    (store : Store) (csv_path : String) (t : WindTable) (Nx Ny : ℕ)
    (ht : store csv_path = some (.csv t))
    (hspan : hasAffineSpan (t.rows.map fun r => (r.x, r.y)) = true)
    (hNx : 2 ≤ Nx) (hNy : 2 ≤ Ny) :
    ∃ fld : RectilinearField,
      load_and_interpolate interp store csv_path Nx Ny = .ok fld ∧
      fld.x_vec.length = Nx ∧
      fld.y_vec.length = Ny ∧
      fld.x_vec = linspace (listMin (t.rows.map fun r => r.x))
        (listMax (t.rows.map fun r => r.x)) Nx ∧
      fld.y_vec = linspace (listMin (t.rows.map fun r => r.y))
        (listMax (t.rows.map fun r => r.y)) Ny ∧
      fld.x_vec.getD 0 0 = listMin (t.rows.map fun r => r.x) ∧
      fld.x_vec.getD (Nx - 1) 0 = listMax (t.rows.map fun r => r.x) ∧
      fld.y_vec.getD 0 0 = listMin (t.rows.map fun r => r.y) ∧
      fld.y_vec.getD (Ny - 1) 0 = listMax (t.rows.map fun r => r.y) ∧
      fld.ux_grid.length = fld.x_vec.length ∧
      fld.uy_grid.length = fld.x_vec.length ∧
      (∀ row ∈ fld.ux_grid, row.length = fld.y_vec.length) ∧
      (∀ row ∈ fld.uy_grid, row.length = fld.y_vec.length) := by
  have hgd : ∀ vals queries,
      griddata interp (t.rows.map fun r => (r.x, r.y)) vals queries =
        some (queries.map (interp (t.rows.map fun r => (r.x, r.y)) vals)) := by
    intro vals queries
    simp [griddata, hspan]
  have hload : load_and_interpolate interp store csv_path Nx Ny = .ok
      ⟨linspace (listMin (t.rows.map fun r => r.x))
          (listMax (t.rows.map fun r => r.x)) Nx,
        linspace (listMin (t.rows.map fun r => r.y))
          (listMax (t.rows.map fun r => r.y)) Ny,
        reshape Nx Ny
          ((meshgridRavel
              (linspace (listMin (t.rows.map fun r => r.x))
                (listMax (t.rows.map fun r => r.x)) Nx)
              (linspace (listMin (t.rows.map fun r => r.y))
                (listMax (t.rows.map fun r => r.y)) Ny)).map
            (interp (t.rows.map fun r => (r.x, r.y))
              (t.rows.map fun r => r.ux))) none,
        reshape Nx Ny
          ((meshgridRavel
              (linspace (listMin (t.rows.map fun r => r.x))
                (listMax (t.rows.map fun r => r.x)) Nx)
              (linspace (listMin (t.rows.map fun r => r.y))
                (listMax (t.rows.map fun r => r.y)) Ny)).map
            (interp (t.rows.map fun r => (r.x, r.y))
              (t.rows.map fun r => if t.hasUy then r.uy else 0))) none⟩ := by
    unfold load_and_interpolate
    rw [ht]
    simp only [hgd]
  refine ⟨_, hload, by rw [linspace_length], by rw [linspace_length], rfl, rfl,
    linspace_first _ _ _ (by omega), linspace_last _ _ _ hNx,
    linspace_first _ _ _ (by omega), linspace_last _ _ _ hNy,
    ?_, ?_, ?_, ?_⟩
  · rw [reshape_length, linspace_length]
  · rw [reshape_length, linspace_length]
  · rw [linspace_length]
    exact reshape_row_length Nx Ny _ none
  · rw [linspace_length]
    exact reshape_row_length Nx Ny _ none

/-- Witness for C7 at a concrete input: three non-collinear points. -/
theorem C7_axes_and_shape_witness :
    2 ≤ 2 ∧
    hasAffineSpan (([⟨0, 0, 1, 0⟩, ⟨1, 0, 2, 0⟩, ⟨0, 1, 3, 0⟩] : List WindRow).map
      fun r => (r.x, r.y)) = true ∧
    (∃ fld : RectilinearField,
      load_and_interpolate (fun _ _ _ => none)
        (fun n => if n = "w.csv" then
          some (FileVal.csv ⟨[⟨0, 0, 1, 0⟩, ⟨1, 0, 2, 0⟩, ⟨0, 1, 3, 0⟩], false⟩)
         else none)
        "w.csv" 2 2 = .ok fld ∧
      fld.x_vec.length = 2 ∧
      fld.y_vec.length = 2 ∧
      fld.x_vec = linspace (listMin [0, 1, 0]) (listMax [0, 1, 0]) 2 ∧
      fld.y_vec = linspace (listMin [0, 0, 1]) (listMax [0, 0, 1]) 2 ∧
      fld.x_vec.getD 0 0 = listMin [0, 1, 0] ∧
      fld.x_vec.getD 1 0 = listMax [0, 1, 0] ∧
      fld.y_vec.getD 0 0 = listMin [0, 0, 1] ∧
      fld.y_vec.getD 1 0 = listMax [0, 0, 1] ∧
      fld.ux_grid.length = fld.x_vec.length ∧
      fld.uy_grid.length = fld.x_vec.length ∧
      (∀ row ∈ fld.ux_grid, row.length = fld.y_vec.length) ∧
      (∀ row ∈ fld.uy_grid, row.length = fld.y_vec.length)) :=
  ⟨le_refl 2,
    by
      simp only [List.map_cons, List.map_nil, hasAffineSpan, List.any_cons,
        List.any_nil, Bool.or_eq_true, decide_eq_true_eq, Bool.or_false]
      norm_num,
    C7_axes_and_shape (fun _ _ _ => none) _ "w.csv"
      ⟨[⟨0, 0, 1, 0⟩, ⟨1, 0, 2, 0⟩, ⟨0, 1, 3, 0⟩], false⟩ 2 2 (by simp)
      (by
        simp only [List.map_cons, List.map_nil, hasAffineSpan, List.any_cons,
          List.any_nil, Bool.or_eq_true, decide_eq_true_eq, Bool.or_false]
        norm_num)
      (le_refl 2) (le_refl 2)⟩

/-- C5 counterexample: with the negative base speed -1, the synthesizer
performs no validation and writes a non-empty output array anyway, and
with the negative crop size -1 the resampler returns output arrays of the
requested resolution; no error of any kind is raised. -/
theorem C5_counterexample :
    (export_incident_data_arrays (-1) 0 1 1 "p" emptyStore)
        ("p" ++ "_ux_incident.npy") =
      some (.npyHalf (incident_arrays (-1) 0 1 1).1) ∧
    (incident_arrays (-1) 0 1 1).1.length = 1 ∧
    (extract_rotated_crop [0, 1] [0, 1] (fun _ _ => some 0) (fun _ _ => some 0)
        0 0 (-1) (-1) 0 1 1).1.length = 1 := by
  refine ⟨?_, ?_, ?_⟩
  · unfold export_incident_data_arrays
    rw [if_pos rfl]
  · simp [incident_arrays]
  · simp only [extract_rotated_crop]
    rw [reshape_length]

/-- C5 amended: neither component validates its parameters: for every
negative base speed the synthesizer still computes and writes both
incident arrays, and for every non-positive window size the resampler
still returns the pair of output arrays of the requested resolution;
no InvalidParameter error path exists in the code. -/
theorem C5_amended_no_validation (v a w h cx cy : ℝ) (Nx Ny : ℕ) (stem : String)
    (store : Store) (x_vec y_vec : List ℝ) (ux uy : ℕ → ℕ → Option ℝ)
    (_hv : v < 0) (_hw : w ≤ 0) (_hh : h ≤ 0) :
    (export_incident_data_arrays v a Nx Ny stem store) (stem ++ "_ux_incident.npy") =
        some (.npyHalf (incident_arrays v a Nx Ny).1) ∧
    (export_incident_data_arrays v a Nx Ny stem store) (stem ++ "_uy_incident.npy") =
        some (.npyHalf (incident_arrays v a Nx Ny).2) ∧
    (extract_rotated_crop x_vec y_vec ux uy cx cy w h a Nx Ny).1.length = Nx ∧
    (extract_rotated_crop x_vec y_vec ux uy cx cy w h a Nx Ny).2.length = Nx ∧
    (∀ row ∈ (extract_rotated_crop x_vec y_vec ux uy cx cy w h a Nx Ny).1,
      row.length = Ny) ∧
    (∀ row ∈ (extract_rotated_crop x_vec y_vec ux uy cx cy w h a Nx Ny).2,
      row.length = Ny) := by
  refine ⟨?_, ?_, ?_, ?_, ?_, ?_⟩
  · unfold export_incident_data_arrays
    rw [if_pos rfl]
  · unfold export_incident_data_arrays
    rw [if_neg (append_ne_of_suffix_ne stem _ _ (by decide)), if_pos rfl]
  · simp only [extract_rotated_crop]
    rw [reshape_length]
  · simp only [extract_rotated_crop]
    rw [reshape_length]
  · simp only [extract_rotated_crop]
    exact reshape_row_length Nx Ny _ none
  · simp only [extract_rotated_crop]
    exact reshape_row_length Nx Ny _ none

/-- Witness for the amended C5 at a concrete input. -/
theorem C5_amended_no_validation_witness :
    ((-1 : ℝ) < 0 ∧ (-1 : ℝ) ≤ 0) ∧
    ((export_incident_data_arrays (-1) 0 1 1 "p" emptyStore)
        ("p" ++ "_ux_incident.npy") =
      some (.npyHalf (incident_arrays (-1) 0 1 1).1) ∧
    (export_incident_data_arrays (-1) 0 1 1 "p" emptyStore)
        ("p" ++ "_uy_incident.npy") =
      some (.npyHalf (incident_arrays (-1) 0 1 1).2) ∧
    (extract_rotated_crop [0, 1] [0, 1] (fun _ _ => some 0) (fun _ _ => some 0)
        0 0 (-1) (-1) 0 1 1).1.length = 1 ∧
    (extract_rotated_crop [0, 1] [0, 1] (fun _ _ => some 0) (fun _ _ => some 0)
        0 0 (-1) (-1) 0 1 1).2.length = 1 ∧
    (∀ row ∈ (extract_rotated_crop [0, 1] [0, 1] (fun _ _ => some 0)
        (fun _ _ => some 0) 0 0 (-1) (-1) 0 1 1).1, row.length = 1) ∧
    (∀ row ∈ (extract_rotated_crop [0, 1] [0, 1] (fun _ _ => some 0)
        (fun _ _ => some 0) 0 0 (-1) (-1) 0 1 1).2, row.length = 1)) :=
  ⟨⟨by norm_num, by norm_num⟩,
    C5_amended_no_validation (-1) 0 (-1) (-1) 0 0 1 1 "p" emptyStore
      [0, 1] [0, 1] (fun _ _ => some 0) (fun _ _ => some 0)
      (by norm_num) (by norm_num) (by norm_num)⟩

/-- C9 counterexample: the synthesizer itself writes files: starting from
an empty store, the incident ux file exists afterwards; and the loader
itself reads the csv file: with all non-store arguments identical, its
result differs between an empty store and a store holding a (degenerate)
table at the path, so the component's behaviour depends on file contents
it reads by itself. -/
theorem C9_counterexample :
    (export_incident_data_arrays 1 0 1 1 "p" emptyStore)
        ("p" ++ "_ux_incident.npy") ≠
      emptyStore ("p" ++ "_ux_incident.npy") ∧
    load_and_interpolate (fun _ _ _ => none) emptyStore "w.csv" 1 1 ≠
      load_and_interpolate (fun _ _ _ => none)
        (fun n => if n = "w.csv" then some (FileVal.csv ⟨[], true⟩) else none)
        "w.csv" 1 1 := by
  constructor
  · unfold export_incident_data_arrays emptyStore
    rw [if_pos rfl]
    simp
  · have h1 : load_and_interpolate (fun _ _ _ => none) emptyStore "w.csv" 1 1 =
        .error .fileNotFound := rfl
    have h2 : load_and_interpolate (fun _ _ _ => none)
        (fun n => if n = "w.csv" then some (FileVal.csv ⟨[], true⟩) else none)
        "w.csv" 1 1 = .error .insufficientSupport := rfl
    rw [h1, h2]
    simp

/-- C9 amended: all three components are deterministic transforms, and
the resampler indeed involves no file store at all, but the loader and
the synthesizer do their own I/O: the loader's result depends on the
store exactly through the content at the csv path it reads, and each
export function changes the store at exactly its two output names,
leaving every other name (in particular all of its inputs) unchanged. -/
theorem C9_amended_io_discipline
    (interp : List (ℝ × ℝ) → List ℝ → ℝ × ℝ → Option ℝ)
    (s1 s2 : Store) (csv_path : String) (Nx Ny : ℕ)
    (v a : ℝ) (uxc uyc : List (List (Option ℝ))) (stem name : String)
    (store : Store)
    (hagree : s1 csv_path = s2 csv_path)
    (hux : name ≠ stem ++ "_ux_incident.npy")
    (huy : name ≠ stem ++ "_uy_incident.npy")
    (hsx : name ≠ stem ++ "_ux_sim.npy")
    (hsy : name ≠ stem ++ "_uy_sim.npy") :
    load_and_interpolate interp s1 csv_path Nx Ny =
      load_and_interpolate interp s2 csv_path Nx Ny ∧
    (export_incident_data_arrays v a Nx Ny stem store) name = store name ∧
    (export_simulated_data_arrays uxc uyc stem store) name = store name := by
  refine ⟨?_, ?_, ?_⟩
  · unfold load_and_interpolate
    rw [hagree]
  · unfold export_incident_data_arrays
    rw [if_neg hux, if_neg huy]
  · unfold export_simulated_data_arrays
    rw [if_neg hsx, if_neg hsy]

/-- Witness for the amended C9 at a concrete input. -/
theorem C9_amended_io_discipline_witness :
    ("other.txt" ≠ "p" ++ "_ux_incident.npy" ∧
      "other.txt" ≠ "p" ++ "_uy_incident.npy") ∧
    (load_and_interpolate (fun _ _ _ => none) emptyStore "w.csv" 1 1 =
      load_and_interpolate (fun _ _ _ => none) emptyStore "w.csv" 1 1 ∧
    (export_incident_data_arrays 1 0 1 1 "p" emptyStore) "other.txt" =
      emptyStore "other.txt" ∧
    (export_simulated_data_arrays [] [] "p" emptyStore) "other.txt" =
      emptyStore "other.txt") :=
  ⟨⟨by decide, by decide⟩,
    C9_amended_io_discipline (fun _ _ _ => none) emptyStore emptyStore "w.csv" 1 1
      1 0 [] [] "p" "other.txt" emptyStore rfl
      (by decide) (by decide) (by decide) (by decide)⟩

end WindMap
